import Mathlib

/-!
Verification of the PCIe Lane Margining at Receiver (LMR) test core
(`pcie_lmt`): a shallow embedding, in Lean 4, of the Go functions named in
the claims, with theorems settling each claim.

Conventions of the embedding:
* Go unsigned machine integers are modelled as `ℕ`; a conversion that
  truncates (`uint8(x)`, the `uint16` return type of a register read) is
  modelled by an explicit `% 2^w`.
* `int32(x)` applied to a `uint32` value is modelled by `toInt32`, and the
  subsequent Go arithmetic shift and mask on `int32` by `Int` operations
  with the same two's-complement semantics (`Int.shiftRight` on negatives
  sign-extends; `Int.land` is two's-complement AND).
* Go `float32`/`float64` arithmetic is idealised over `ℚ` (pure ratios) or
  `ℝ` (formulas involving `math.Pow`/`math.Log2`); rounding error is not
  modelled.
* Loops whose body polls hardware are modelled as fuel-indexed recursive
  functions over an oracle (`ℕ → ℕ` response stream, or a status function
  per issued command); wall-clock time is idealised as one `marginWait`
  tick (3 ms) per poll iteration.
-/

namespace PcieLmt

/-! ## Constants from `pciutils.go` (PCIe 5.0 spec 4.2.13.1) -/

def UsageModel : ℕ := 0
def StepMarginExecutionStatusPos : ℕ := 6
def StepMarginExecutionStatusMask : ℕ := 0xc0
def StepMarginErrorCountMask : ℕ := 0x3F
def StepMarginExecutionStatusErrorOut : ℕ := 0x0
def StepMarginExecutionStatusSettingUp : ℕ := 0x1
def StepMarginExecutionStatusMargining : ℕ := 0x2
def StepMarginExecutionStatusNak : ℕ := 0x3
def VoltageDirMask : ℕ := 0x80
def TimingDirMask : ℕ := 0x40

def MarginTypeNoCmd : ℕ := 7
def MarginTypeReport : ℕ := 1
def MarginTypeSet : ℕ := 2
def MarginTypeTiming : ℕ := 3
def MarginTypeVoltage : ℕ := 4

def NoCmdPayload : ℕ := 0x9C
def NoCmdRecNum : ℕ := 0

def RptSampleCount : ℕ := 0x8F
def MskSampleCount : ℕ := 0x7F

def SetGoToNormalSettings : ℕ := 0x0F
def SetClearErrorLog : ℕ := 0x55

/-- Gen4 speed encoding in LnkSta (`Speed16G`). -/
def Speed16G : ℕ := 4
/-- Gen5 speed encoding in LnkSta (`Speed32G`). -/
def Speed32G : ℕ := 5

/-! ## `lmt.proto` enum values -/

/-- `LinkMargin_Lane_MarginPoint_S_UNKNOWN`. -/
def S_UNKNOWN : ℕ := 0
/-- `LinkMargin_Lane_MarginPoint_S_ERROR_OUT`. -/
def S_ERROR_OUT : ℕ := 1
/-- `LinkMargin_Lane_MarginPoint_S_SETTING_UP`. -/
def S_SETTING_UP : ℕ := 2
/-- `LinkMargin_Lane_MarginPoint_S_MARGINING`. -/
def S_MARGINING : ℕ := 3
/-- `LinkMargin_Lane_MarginPoint_S_NAK`. -/
def S_NAK : ℕ := 4

/-! ## The LMR 16-bit command/response codec (`cmdRsp` in `pciutils.go`) -/

/-- The LMR command/response word fields.  The Go struct field `rec` must be
renamed (`rec` is reserved for the recursor in Lean); it is `recNum` here. -/
structure cmdRsp where
  payload : ℕ
  usage : ℕ
  typ : ℕ
  recNum : ℕ
deriving DecidableEq, Repr

/-- `cmdRsp.encode` packs fields into the raw word:
`raw = ((payload & 0xFF) << 8) | ((usage & 1) << 6) | ((typ & 7) << 3) | (rec & 7)`. -/
def cmdRsp.encode (cr : cmdRsp) : ℕ :=
  ((cr.payload &&& 0xFF) <<< 8) |||
  ((cr.usage &&& 0x1) <<< 6) |||
  ((cr.typ &&& 0x7) <<< 3) |||
  ((cr.recNum &&& 0x7) <<< 0)

/-- `cmdRsp.decode` unpacks a raw word:
payload = `(raw >> 8) & 0xFF`, usage = `(raw >> 6) & 1`,
typ = `(raw >> 3) & 7`, rec = `(raw >> 0) & 7`. -/
def cmdRsp.decode (raw : ℕ) : cmdRsp :=
  { payload := (raw >>> 8) &&& 0xFF
    usage := (raw >>> 6) &&& 1
    typ := (raw >>> 3) &&& 0x7
    recNum := (raw >>> 0) &&& 0x7 }

/-! ## Link preparation and restoration (`prepLink` / `restoreLink`) -/

/-- `PCI_EXP_LNKCTL_ASPM` (pciutils `lib/header.h`): ASPM-control bits [1:0]. -/
def PCI_EXP_LNKCTL_ASPM : ℕ := 0x0003
/-- `PCI_EXP_LNKCTL_HWAUTWD`: Hardware Autonomous Width Disable, bit 9. -/
def PCI_EXP_LNKCTL_HWAUTWD : ℕ := 0x0200
/-- `PCI_EXP_LNKCTL2_SPEED_DIS`: Hardware Autonomous Speed Disable, bit 5. -/
def PCI_EXP_LNKCTL2_SPEED_DIS : ℕ := 0x0020

/-- Go's `x &^ mask` (bit clear) on a `uint16` operand: AND with the
16-bit complement of the mask.  All operands in this development are
16-bit register/payload values, for which this equals `Nat.ldiff`. -/
def clearBits16 (x mask : ℕ) : ℕ := x &&& (0xFFFF ^^^ mask)

/-- The two link-control registers of one port touched by prep/restore. -/
structure PortRegs where
  lnkCtl : ℕ
  lnkCtl2 : ℕ
deriving DecidableEq, Repr

/-- The state `prepLink` saves in the `port` struct (`hawd`, `hasd`). -/
structure SavedPort where
  hawd : Bool
  hasd : Bool
deriving DecidableEq, Repr

/-- One port's half of `prepLink`: capture `hawd` from LnkCtl, set HWAUTWD,
clear ASPM (`val &^ ASPM`); capture `hasd` from LnkCtl2 and set SPEED_DIS.
Returns the written registers and the saved state. -/
def prepPort (r : PortRegs) : PortRegs × SavedPort :=
  let val := r.lnkCtl
  let hawd := val &&& PCI_EXP_LNKCTL_HWAUTWD ≠ 0
  let val := clearBits16 (val ||| PCI_EXP_LNKCTL_HWAUTWD) PCI_EXP_LNKCTL_ASPM
  let val2 := r.lnkCtl2
  let hasd := val2 &&& PCI_EXP_LNKCTL2_SPEED_DIS ≠ 0
  let val2 := val2 ||| PCI_EXP_LNKCTL2_SPEED_DIS
  (⟨val, val2⟩, ⟨hawd, hasd⟩)

/-- One port's half of `restoreLink`, applied to the register contents read
back at restore time.  Note the source writes the saved `hawd` flag into
BOTH LnkCtl's HWAUTWD slot and LnkCtl2's SPEED_DIS slot, and never touches
the ASPM bits. -/
def restorePort (s : SavedPort) (r : PortRegs) : PortRegs :=
  let val := if s.hawd then r.lnkCtl ||| PCI_EXP_LNKCTL_HWAUTWD
             else clearBits16 r.lnkCtl PCI_EXP_LNKCTL_HWAUTWD
  let val2 := if s.hawd then r.lnkCtl2 ||| PCI_EXP_LNKCTL2_SPEED_DIS
              else clearBits16 r.lnkCtl2 PCI_EXP_LNKCTL2_SPEED_DIS
  ⟨val, val2⟩

/-! ## Lane parameters (`lmtpb.LinkMargin_Lane_Parameters`) -/

/-- The observed lane-capability record (only the fields the verified
functions consult). -/
structure LaneParameters where
  numTimingSteps : ℕ
  maxTimingOffset : ℕ
  numVoltageSteps : ℕ
  maxVoltageOffset : ℕ
  indLeftRightTiming : Bool
  indUpDownVoltage : Bool
  indErrorSampler : Bool
  sampleReportingMethod : Bool
deriving DecidableEq, Repr

/-! ## The per-offset engineering value computed by `margin()` -/

/-- Direction/steps decomposition of a timing offset payload in `margin()`:
`steps = offset &^ TimingDirMask`. -/
def timingSteps (offset : ℕ) : ℕ := clearBits16 offset TimingDirMask

/-- `steps = offset &^ VoltageDirMask` for a voltage offset payload. -/
def voltageSteps (offset : ℕ) : ℕ := clearBits16 offset VoltageDirMask

/-- `margin()`'s `percent_ui` for a timing point, idealised over `ℚ`:
`ui = float32(steps) * float32(MaxTimingOffset) / 100.0 / float32(NumTimingSteps)`. -/
def marginPercentUi (p : LaneParameters) (offset : ℕ) : ℚ :=
  (timingSteps offset : ℚ) * (p.maxTimingOffset : ℚ) / 100 / (p.numTimingSteps : ℚ)

/-- `margin()`'s `voltage` for a voltage point, idealised over `ℚ`:
`vv = float32(steps) * float32(MaxVoltageOffset) / 100.0 / float32(NumVoltageSteps)`. -/
def marginVoltage (p : LaneParameters) (offset : ℕ) : ℚ :=
  (voltageSteps offset : ℚ) * (p.maxVoltageOffset : ℚ) / 100 / (p.numVoltageSteps : ℚ)

/-! ## The `margin()` polling loop (`lmt_offset.go`) -/

/-- `marginWait` in milliseconds (3 ms poll interval). -/
def marginWaitMs : ℕ := 3
/-- `marginTimeout` in milliseconds (1000 ms; spec setup timeout is 200 ms). -/
def marginTimeoutMs : ℕ := 1000

/-- The observable outcome of the `looping:` loop in `margin()`:
the recorded point status (proto enum value), the last error count, the
accumulated dwell, whether `setSampleCount` was set, and the elapsed time
since the step command at loop exit. -/
structure MarginLoopOut where
  status : ℕ
  errorCount : ℕ
  dwellActualMs : ℕ
  setSampleCount : Bool
  exitElapsedMs : ℕ
deriving DecidableEq, Repr

/-- The `looping:` polling loop of `margin()`.  `rsp i` is the raw response
word observed on the `i`-th poll (`rsp 0` is the response returned by the
step command's `lmrCmdRsp`); time is idealised so that poll `i` happens
`marginWaitMs * i` milliseconds after the step command returned.
`dwellStart` is `tDwellStart` (`none` = the zero `time.Time`), `dwellActual`
the running `dwellActual`.  `none` is returned when fuel runs out (the real
loop has no iteration bound; the claims here concern which statuses are
terminal, not termination). -/
def marginLoopGo (rsp : ℕ → ℕ) (dwellMs : ℕ) :
    ℕ → ℕ → Option ℕ → ℕ → Option MarginLoopOut
  | 0, _, _, _ => none
  | fuel + 1, i, dwellStart, dwellActual =>
    let payload := (rsp i >>> 8) &&& 0xFF
    let status := (payload &&& StepMarginExecutionStatusMask) >>> StepMarginExecutionStatusPos
    let errcnt := payload &&& StepMarginErrorCountMask
    let now := marginWaitMs * i
    if status = StepMarginExecutionStatusNak then
      some ⟨S_NAK, errcnt, dwellActual, false, now⟩
    else if status = StepMarginExecutionStatusErrorOut then
      let dwellActual := match dwellStart with
        | some t => now - t
        | none => dwellActual
      some ⟨S_ERROR_OUT, errcnt, dwellActual, true, now⟩
    else if status = StepMarginExecutionStatusSettingUp then
      if marginTimeoutMs < now then
        some ⟨S_SETTING_UP, errcnt, dwellActual, false, now⟩
      else
        marginLoopGo rsp dwellMs fuel (i + 1) dwellStart dwellActual
    else if status = StepMarginExecutionStatusMargining then
      let start := dwellStart.getD now
      let dwellActual := now - start
      if dwellMs ≤ dwellActual then
        some ⟨S_MARGINING, errcnt, dwellActual, true, now⟩
      else
        marginLoopGo rsp dwellMs fuel (i + 1) (some start) dwellActual
    else
      some ⟨S_UNKNOWN, errcnt, dwellActual, false, now⟩

/-! ## Dwell-time derivation (`calculateDwellTime`, `getLinks` speed) -/

/-- The link speed in bits per second selected by `getLinks` from the
`PCI_EXP_LNKSTA_SPEED` field: 16e9 for Gen4, 32e9 for Gen5, 0 otherwise
(the port is then marked not test-ready). -/
noncomputable def linkSpeedBps (speedBits : ℕ) : ℝ :=
  if speedBits = Speed16G then 16e9
  else if speedBits = Speed32G then 32e9
  else 0

/-- The fields of the `aspect` struct written by `calculateDwellTime`. -/
structure DwellCalc where
  rate : ℕ
  bitCount : ℝ
  sps : ℝ
  dwell : ℝ
  specDwell : ℝ
deriving Inhabited

/-- `calculateDwellTime`, idealised over `ℝ` (durations in seconds).
Inputs: the lane parameters, the port speed (`ln.speed`), the aspect's
`rate` and the spec's `samples`, and the spec's optional `dwell`.
`dwell` in the result is the `t.dwell` field later consulted by `margin()`;
`specDwell` is `*t.spec.Dwell` after the call.  Note the `else` branch of
the final `if` (log line "Using specified dwell") does not write `t.dwell`. -/
noncomputable def calculateDwellTime (p : LaneParameters) (speed : ℝ)
    (rate samples : ℕ) (specDwell : Option ℝ) : DwellCalc :=
  let rate := if rate = 0 ∧ (¬p.indErrorSampler ∨ ¬p.sampleReportingMethod)
              then 63 else rate
  let bitCount : ℝ := (2 : ℝ) ^ ((samples : ℝ) / 3)
  let sps : ℝ := ((rate : ℝ) + 1) / 64 * speed
  let dwell : ℝ := bitCount / sps
  let specDwellOut : ℝ := match specDwell with
    | none => dwell
    | some d => if d < dwell then dwell else d
  ⟨rate, bitCount, sps, dwell, specDwellOut⟩

/-! ## Sample-count derivation after the polling loop (`margin()`) -/

/-- The branch of `margin()` executed when `setSampleCount` holds and the
lane reports by rate or lacks an independent error sampler:
`bitCount = dwellActual.Seconds() * sps`; if zero, the sentinel 18 is used
(64 bits); otherwise `uint32(math.Round(math.Log2(bitCount) * 3))`
(idealised as a rounded real; the `uint32` conversion is not modelled). -/
noncomputable def deriveSampleCountByRate (dwellActualSec sps : ℝ) : ℤ :=
  let bitCount := dwellActualSec * sps
  if bitCount = 0 then 18 else round (Real.logb 2 bitCount * 3)

/-- The full sample-count selection of `margin()`: derive from
`dwellActual * sps` when `SampleReportingMethod || !IndErrorSampler`,
otherwise take the low 7 bits (`MskSampleCount`) of the Report-Sample-Count
response payload. -/
noncomputable def marginSampleCount (p : LaneParameters)
    (dwellActualSec sps : ℝ) (rptPayload : ℕ) : ℤ :=
  if p.sampleReportingMethod ∨ ¬p.indErrorSampler then
    deriveSampleCountByRate dwellActualSec sps
  else
    ((rptPayload &&& MskSampleCount : ℕ) : ℤ)

/-! ## The command-register write trace of one `margin()` call (`lmt_offset.go`,
`pciutils.go` protocol primitives) -/

/-- The No-Command broadcast word built by `lmrBroadcastNoCmd`:
`cmdRsp{payload: NoCmdPayload, rec: NoCmdRecNum, typ: MarginTypeNoCmd}`. -/
def noCmdCmd : cmdRsp := ⟨NoCmdPayload, 0, MarginTypeNoCmd, NoCmdRecNum⟩

/-- Whether a written command word is the No-Command broadcast. -/
def isNoCmd (c : cmdRsp) : Prop :=
  c.payload = NoCmdPayload ∧ c.typ = MarginTypeNoCmd ∧ c.recNum = NoCmdRecNum

instance (c : cmdRsp) : Decidable (isNoCmd c) := by
  unfold isNoCmd; infer_instance

/-- The sequence of command-register writes performed by one successful
`margin()` call.  Each `lmrCmdRsp`/`lmrCmdRspEcho` writes the No-Command
broadcast and then the command (`lmrBroadcastNoCmd` is one
`lmrCmdRspBase` write, the command another); the polling loop only reads
the response register.  When `setSampleCount` is set and the lane neither
reports by rate nor lacks an independent error sampler, the
Report-Sample-Count query is issued directly through `lmrCmdRspBase` —
a single write.  The trailing Clear-Error-Log and Go-To-Normal-Settings
go through `lmrCmdRspEcho`. -/
def marginWriteTrace (recNum offset : ℕ) (vNotT : Bool)
    (p : LaneParameters) (setSampleCount : Bool) : List cmdRsp :=
  [noCmdCmd, ⟨offset, UsageModel, if vNotT then MarginTypeVoltage else MarginTypeTiming, recNum⟩]
  ++ (if setSampleCount then
        (if p.sampleReportingMethod ∨ ¬p.indErrorSampler then []
         else [⟨RptSampleCount, UsageModel, MarginTypeReport, recNum⟩])
      else [])
  ++ [noCmdCmd, ⟨SetClearErrorLog, UsageModel, MarginTypeSet, recNum⟩,
      noCmdCmd, ⟨SetGoToNormalSettings, UsageModel, MarginTypeSet, recNum⟩]

/-- The broadcast discipline the spec asserts of the register trace: every
written command word that is not itself the No-Command broadcast is
immediately preceded by a No-Command broadcast write. -/
def noCmdPrecedesEachCmd (tr : List cmdRsp) : Prop :=
  ∀ i c, tr.get? i = some c → ¬ isNoCmd c →
    0 < i ∧ ∃ d, tr.get? (i - 1) = some d ∧ isNoCmd d

/-! ## The eye scan (`scanEye` in the lane-level file) -/

/-- A step-margin command issued by `scanEye`, tagged by issuing side:
the positive side issues payload `offset`, the negative side
`offset ||| t.dirmask`. -/
inductive MarginCmd where
  | posCmd (offset : ℕ)
  | negCmd (offset : ℕ)
deriving DecidableEq, Repr

/-- Whether a scan command was issued on the positive side. -/
def MarginCmd.isPos : MarginCmd → Bool
  | .posCmd _ => true
  | .negCmd _ => false

/-- Whether a scan command was issued on the negative side. -/
def MarginCmd.isNeg : MarginCmd → Bool
  | .posCmd _ => false
  | .negCmd _ => true

/-- The `t.mp[2][2]` corner array of `scanEye`: `[pos/neg][pass/fail]`
margin points, abstracted by the point's recorded status (`none` is a nil
pointer). -/
structure EyeState where
  posPass : Option ℕ
  posFail : Option ℕ
  negPass : Option ℕ
  negFail : Option ℕ
deriving DecidableEq, Repr

/-- The all-nil initial `t.mp` (the `aspect` struct's zero value). -/
def EyeState.init : EyeState := ⟨none, none, none, none⟩

/-- The positive-side block of one `scanEye` iteration.  Issues
`margin(offset)` unless the lane lacks an independent error sampler and the
positive side has already failed.  Returns the updated corners, the `mp`
variable (`none` = untouched nil), `passPos`, and the issued commands. -/
def scanPosStep (statusOf : MarginCmd → ℕ) (indErr : Bool) (offset : ℕ)
    (st : EyeState) : EyeState × Option ℕ × Bool × List MarginCmd :=
  if indErr = true ∨ st.posFail = none then
    let s := statusOf (.posCmd offset)
    let passPos := s = S_MARGINING
    let st :=
      if s = S_MARGINING then
        (if st.posFail = none then { st with posPass := some s } else st)
      else
        (if st.posFail = none then { st with posFail := some s } else st)
    (st, some s, passPos, [.posCmd offset])
  else (st, none, false, [])

/-- The negative-side measurement of one `scanEye` iteration (only run when
`t.indDir`); mirrors the `IndErrorSampler || t.mp[neg][fail] == nil`
guard.  Takes the `mp`/`passPos` flowing out of the positive block. -/
def scanNegStep (statusOf : MarginCmd → ℕ) (indErr : Bool) (offset : ℕ)
    (mp : Option ℕ) (passPos : Bool) (st : EyeState) :
    Option ℕ × Bool × List MarginCmd :=
  if indErr = true ∨ st.negFail = none then
    let s := statusOf (.negCmd offset)
    (some s, decide (s = S_MARGINING), [.negCmd offset])
  else (mp, passPos, [])

/-- The negative-corner recording at the bottom of the iteration (outside
the `t.indDir` guard in the source). -/
def recordNeg (passNeg : Bool) (mp : Option ℕ) (st : EyeState) : EyeState :=
  if passNeg then
    (if st.negFail = none then { st with negPass := mp } else st)
  else
    (if st.negFail = none then { st with negFail := mp } else st)

/-- `scanEye`: iterate margin offsets from `offset` to `target` in strides
of `step` (clamped to end exactly at `target`), measuring the positive side
and, when `indDir`, the negative side; stop early in until-fail mode once
both sides fail.  `statusOf` abstracts `margin()`'s resulting point status.
Returns the corner array and the list of issued step commands; fuel-indexed
(`determineMarginRange` guarantees `step ≥ 1`, so real executions
terminate, but the claim settled on this model does not need that). -/
def scanEyeGo (statusOf : MarginCmd → ℕ) (indErr indDir untilFail : Bool)
    (target step : ℕ) : ℕ → ℕ → EyeState → EyeState × List MarginCmd
  | 0, _, st => (st, [])
  | fuel + 1, offset, st =>
    let ps := scanPosStep statusOf indErr offset st
    let st1 := ps.1
    let mp1 := ps.2.1
    let passPos := ps.2.2.1
    let tr1 := ps.2.2.2
    let ns := if indDir = true then scanNegStep statusOf indErr offset mp1 passPos st1
              else (mp1, passPos, ([] : List MarginCmd))
    let mp2 := ns.1
    let passNeg := ns.2.1
    let tr2 := ns.2.2
    let st2 := recordNeg passNeg mp2 st1
    if target ≤ offset then (st2, tr1 ++ tr2)
    else if untilFail = true ∧ passPos = false ∧ passNeg = false then (st2, tr1 ++ tr2)
    else
      let offset1 := offset + step
      let offset2 := if target < offset1 then target else offset1
      let rest := scanEyeGo statusOf indErr indDir untilFail target step fuel offset2 st2
      (rest.1, tr1 ++ tr2 ++ rest.2)

/-- The stop-on-first-fail shape of a side's command sequence: every issued
command except possibly the last one has status Margining (so a failing
command is never followed by another on the same side). -/
def AllButLastPass (statusOf : MarginCmd → ℕ) (l : List MarginCmd) : Prop :=
  ∀ i c, l.get? i = some c → i + 1 < l.length → statusOf c = S_MARGINING

/-! ## The lane pass flag (`Lane.Init`, `margin()`, `outputEyeSizeArtifact`) -/

/-- `margin()`'s final pass decision: a terminal status other than
Margining clears `ln.Pass`, except Error-Out when the mode permits it
(`t.errOutOK`). -/
def marginPassUpdate (p : Bool) (status : ℕ) (errOutOK : Bool) : Bool :=
  if status ≠ S_MARGINING then
    (if status = S_ERROR_OUT then (if errOutOK = false then false else p) else false)
  else p

/-- `outputEyeSizeArtifact`'s pass decision: when the spec sets `eye_size`
and the measured total is below it, clear `ln.Pass`. -/
def eyeSizePassUpdate (p : Bool) (eyeSize : Option ℚ) (totalSize : ℚ) : Bool :=
  match eyeSize with
  | some e => if totalSize < e then false else p
  | none => p

/-- `Lane.Init` sets `ln.Pass = true`. -/
def lanePassInit : Bool := true

/-- The assignments a lane's `Pass` field can undergo after `Init`. -/
inductive LaneEvent where
  | marginPoint (status : ℕ) (errOutOK : Bool)
  | eyeSizeCheck (eyeSize : Option ℚ) (totalSize : ℚ)
deriving DecidableEq

/-- One `Pass`-affecting operation applied to the current flag. -/
def lanePassStep (p : Bool) : LaneEvent → Bool
  | .marginPoint status errOutOK => marginPassUpdate p status errOutOK
  | .eyeSizeCheck eyeSize totalSize => eyeSizePassUpdate p eyeSize totalSize

/-! ## The capability-list walkers (`getLMRcapability`, `getPcieCapOffset`
in `lanemargintest.go`) -/

/-- `PCI_EXT_CAP_ID_LMR` (0x27) and `PCI_CAP_ID_EXP` (0x10). -/
def PCI_EXT_CAP_ID_LMR : ℕ := 0x27
def PCI_CAP_ID_EXP : ℕ := 0x10

/-- Go's `int32(x)` applied to the `uint32` value returned by
`pci.ReadLong`: two's-complement reinterpretation of the low 32 bits. -/
def toInt32 (n : ℕ) : ℤ :=
  if n % 2 ^ 32 < 2 ^ 31 then (n % 2 ^ 32 : ℤ) else (n % 2 ^ 32 : ℤ) - 2 ^ 32

/-- The next-pointer computation of `getLMRcapability`:
`addr = (hdr >> 20) & 0x0FFC` on `int32` (arithmetic shift; two's-complement
AND, which `Int.shiftRight` / `Int.land` model exactly). -/
def extCapNext (hdr : ℤ) : ℤ := Int.land (hdr >>> 20) 0x0FFC

/-- The next-pointer computation of `getPcieCapOffset`:
`addr = uint8((hdr >> 8) & 0x0FFC)`; `hdr` is the nonnegative
`int32(uint16)` of a `ReadWord`, so `ℕ` operations suffice, and the `uint8`
conversion is the final `% 256`. -/
def stdCapNext (hdr : ℕ) : ℕ := ((hdr >>> 8) &&& 0x0FFC) % 256

/-- The outcome of a capability walk, addresses of type `α`. -/
inductive CapWalk (α : Type) where
  | found (addr : α)
  | notFoundCap
  | loopAt (addr : α)
  | outOfFuel
deriving DecidableEq, Repr

/-- `getLMRcapability`: walk the extended-capability chain from 0x100,
following `(hdr >> 20) & 0x0FFC`, with the `been` visited bitmap modelled
as a `Finset ℤ` of marked offsets.  `rd` is the config space as seen by
`pci.ReadLong` (a `uint32` value per address).  Fuel-indexed; `outOfFuel`
never occurs with fuel 4097 (theorem below). -/
def getLMRcapabilityGo (rd : ℤ → ℕ) : ℕ → ℤ → Finset ℤ → CapWalk ℤ
  | 0, _, _ => .outOfFuel
  | fuel + 1, addr, been =>
    if addr = 0 then .notFoundCap
    else
      let hdr : ℤ := toInt32 (rd addr)
      if Int.land hdr 0x00FF = (PCI_EXT_CAP_ID_LMR : ℤ) then .found addr
      else
        let been1 := insert addr been
        let next := extCapNext hdr
        if next ∈ been1 then .loopAt next
        else getLMRcapabilityGo rd fuel next been1

/-- `getPcieCapOffset`: walk the standard capability chain starting at the
byte read from 0x34 (`PCI_CAPABILITY_LIST`), following
`uint8((hdr >> 8) & 0x0FFC)`.  `hdr` is `int32(pci.ReadWord(...))`, a
`uint16` value, hence modelled as `rdWord a % 2^16`. -/
def getPcieCapOffsetGo (rdWord : ℕ → ℕ) : ℕ → ℕ → Finset ℕ → CapWalk ℕ
  | 0, _, _ => .outOfFuel
  | fuel + 1, addr, been =>
    if addr = 0 then .notFoundCap
    else
      let hdr : ℕ := rdWord addr % 2 ^ 16
      if hdr &&& 0x00FF = PCI_CAP_ID_EXP then .found addr
      else
        let been1 := insert addr been
        let next := stdCapNext hdr
        if next ∈ been1 then .loopAt next
        else getPcieCapOffsetGo rdWord fuel next been1

/-- Top-level `getLMRcapability` entry: start at `CapabilityStart = 0x100`
with an empty visited bitmap and fuel one greater than the 4096-entry
bitmap. -/
def getLMRcapability (rd : ℤ → ℕ) : CapWalk ℤ :=
  getLMRcapabilityGo rd 4097 0x100 ∅

/-- Top-level `getPcieCapOffset` entry: start at the `uint8` read from the
CAP pointer (modelled as `rdByte34 % 256`) with fuel one greater than the
256-entry bitmap. -/
def getPcieCapOffset (rdByte34 : ℕ) (rdWord : ℕ → ℕ) : CapWalk ℕ :=
  getPcieCapOffsetGo rdWord 257 (rdByte34 % 256) ∅

/-! ## Concrete inputs used by witnesses and divergence theorems -/

/-- A lane that reports samples by rate and has an independent error
sampler (e.g. the S1 scenario of the spec). -/
def paramsRateReporting : LaneParameters := ⟨0, 0, 0, 0, false, false, false, true⟩

/-- A lane with an independent error sampler and rate reporting, also used
with `indErrorSampler = true` for dwell-calculation inputs. -/
def paramsIndSampler : LaneParameters := ⟨0, 0, 0, 0, false, false, true, true⟩

/-- A lane that reports sample counts (not rates) and has an independent
error sampler: the configuration under which `margin()` issues the
Report-Sample-Count query. -/
def paramsCountReporting : LaneParameters := ⟨0, 0, 0, 0, false, false, true, false⟩

/-- A concrete margin oracle for the eye-scan witness: the positive side
passes at offsets 0 and 1 and fails at 2; the negative side passes at 0
and fails from 1 on. -/
def scanOracle : MarginCmd → ℕ
  | .posCmd o => if o < 2 then S_MARGINING else 1
  | .negCmd o => if o < 1 then S_MARGINING else 1

/-! ## Helper lemmas -/

/-- `x &&& 0xFF` is `x % 256`. -/
lemma and255 (x : ℕ) : x &&& 255 = x % 256 := by
  have h := Nat.and_pow_two_sub_one_eq_mod x 8
  norm_num at h
  exact h

/-- `x &&& 7` is `x % 8`. -/
lemma and7 (x : ℕ) : x &&& 7 = x % 8 := by
  have h := Nat.and_pow_two_sub_one_eq_mod x 3
  norm_num at h
  exact h

lemma lor_eq_add8 {b : ℕ} (a : ℕ) (hb : b < 8) : 8 * a ||| b = 8 * a + b := by
  have h : 2 ^ 3 * a + b = 2 ^ 3 * a ||| b := Nat.mul_add_lt_is_or (by omega) a
  norm_num at h
  exact h.symm

lemma lor_eq_add64 {b : ℕ} (a : ℕ) (hb : b < 64) : 64 * a ||| b = 64 * a + b := by
  have h : 2 ^ 6 * a + b = 2 ^ 6 * a ||| b := Nat.mul_add_lt_is_or (by omega) a
  norm_num at h
  exact h.symm

lemma lor_eq_add256 {b : ℕ} (a : ℕ) (hb : b < 256) : 256 * a ||| b = 256 * a + b := by
  have h : 2 ^ 8 * a + b = 2 ^ 8 * a ||| b := Nat.mul_add_lt_is_or (by omega) a
  norm_num at h
  exact h.symm

/-- Arithmetic characterisation of `cmdRsp.encode`. -/
lemma encode_eq_arith (c : cmdRsp) :
    c.encode =
      256 * (c.payload % 256) + (64 * (c.usage % 2) + (8 * (c.typ % 8) + c.recNum % 8)) := by
  unfold cmdRsp.encode
  rw [and255, Nat.and_one_is_mod, and7, and7]
  rw [Nat.shiftLeft_eq, Nat.shiftLeft_eq, Nat.shiftLeft_eq, Nat.shiftLeft_eq]
  rw [Nat.or_assoc, Nat.or_assoc]
  norm_num
  rw [mul_comm (c.payload % 256) 256, mul_comm (c.usage % 2) 64, mul_comm (c.typ % 8) 8]
  rw [lor_eq_add8 _ (by omega), lor_eq_add64 _ (by omega), lor_eq_add256 _ (by omega)]

/-- Arithmetic characterisation of `cmdRsp.decode`. -/
lemma decode_fields (w : ℕ) :
    cmdRsp.decode w = ⟨w / 256 % 256, w / 64 % 2, w / 8 % 8, w % 8⟩ := by
  unfold cmdRsp.decode
  rw [Nat.shiftRight_eq_div_pow, Nat.shiftRight_eq_div_pow, Nat.shiftRight_eq_div_pow,
    Nat.shiftRight_eq_div_pow]
  rw [and255, Nat.and_one_is_mod, and7, and7]
  norm_num

/-- A lane's pass flag is never raised by a single update. -/
lemma lanePassStep_true_mono (p : Bool) (e : LaneEvent) (h : lanePassStep p e = true) :
    p = true := by
  cases e with
  | marginPoint s ok =>
    simp only [lanePassStep] at h
    unfold marginPassUpdate at h
    split at h
    · split at h
      · split at h
        · exact absurd h (by simp)
        · exact h
      · exact absurd h (by simp)
    · exact h
  | eyeSizeCheck es ts =>
    simp only [lanePassStep] at h
    unfold eyeSizePassUpdate at h
    cases es with
    | none => exact h
    | some v =>
      simp only at h
      split at h
      · exact absurd h (by simp)
      · exact h

/-- A failed lane stays failed through any single update. -/
lemma lanePassStep_false (e : LaneEvent) : lanePassStep false e = false := by
  cases h : lanePassStep false e
  · rfl
  · exact absurd (lanePassStep_true_mono false e h) (by simp)

/-- The 2-bit step-margin execution status extracted from a response
payload is at most 3. -/
lemma status_le_three (x : ℕ) :
    (x &&& StepMarginExecutionStatusMask) >>> StepMarginExecutionStatusPos ≤ 3 := by
  have h1 : x &&& StepMarginExecutionStatusMask ≤ 0xc0 := Nat.and_le_right
  have h2 : (x &&& StepMarginExecutionStatusMask) >>> StepMarginExecutionStatusPos =
      (x &&& StepMarginExecutionStatusMask) / 64 := by
    rw [StepMarginExecutionStatusPos, Nat.shiftRight_eq_div_pow]
  omega

/-- Bitwise set difference never exceeds its left operand. -/
lemma ldiff_le_self (n m : ℕ) : Nat.ldiff n m ≤ n := by
  apply Nat.le_of_testBit
  intro i hi
  rw [Nat.testBit_ldiff] at hi
  simp only [Bool.and_eq_true] at hi
  exact hi.1

/-- Two's-complement AND with a nonnegative mask is nonnegative. -/
lemma int_land_mask_nonneg (h : ℤ) (m : ℕ) : 0 ≤ Int.land h (m : ℤ) := by
  cases h with
  | ofNat a =>
    have e : Int.land (Int.ofNat a) (m : ℤ) = ((a &&& m : ℕ) : ℤ) := rfl
    rw [e]
    exact Int.ofNat_nonneg _
  | negSucc a =>
    have e : Int.land (Int.negSucc a) (m : ℤ) = ((Nat.ldiff m a : ℕ) : ℤ) := rfl
    rw [e]
    exact Int.ofNat_nonneg _

/-- Two's-complement AND with a nonnegative mask is at most the mask. -/
lemma int_land_mask_le (h : ℤ) (m : ℕ) : Int.land h (m : ℤ) ≤ (m : ℤ) := by
  cases h with
  | ofNat a =>
    have e : Int.land (Int.ofNat a) (m : ℤ) = ((a &&& m : ℕ) : ℤ) := rfl
    rw [e]
    exact_mod_cast Nat.and_le_right
  | negSucc a =>
    have e : Int.land (Int.negSucc a) (m : ℤ) = ((Nat.ldiff m a : ℕ) : ℤ) := rfl
    rw [e]
    exact_mod_cast ldiff_le_self m a

lemma extCapNext_nonneg (hdr : ℤ) : 0 ≤ extCapNext hdr := by
  have h := int_land_mask_nonneg (hdr >>> 20) 0x0FFC
  simpa [extCapNext] using h

lemma extCapNext_le (hdr : ℤ) : extCapNext hdr ≤ 0x0FFC := by
  have h := int_land_mask_le (hdr >>> 20) 0x0FFC
  simpa [extCapNext] using h

/-- The extended-capability walk cannot exhaust its fuel while more fuel
remains than unmarked bitmap entries. -/
lemma lmrWalk_fueled (rd : ℤ → ℕ) :
    ∀ fuel : ℕ, ∀ addr : ℤ, ∀ been : Finset ℤ,
      been ⊆ Finset.Ico (0 : ℤ) 4096 → addr ∈ Finset.Ico (0 : ℤ) 4096 →
      addr ∉ been → 4096 - been.card < fuel →
      getLMRcapabilityGo rd fuel addr been ≠ .outOfFuel := by
  intro fuel
  induction fuel with
  | zero =>
    intro addr been h1 h2 h3 h4
    omega
  | succ n ih =>
    intro addr been hsub haddr hnot hfuel
    rw [getLMRcapabilityGo.eq_def]
    simp only
    split
    · intro hcon
      exact CapWalk.noConfusion hcon
    · split
      · intro hcon
        exact CapWalk.noConfusion hcon
      · split
        · intro hcon
          exact CapWalk.noConfusion hcon
        · apply ih
          · exact Finset.insert_subset haddr hsub
          · refine Finset.mem_Ico.mpr ⟨extCapNext_nonneg _, ?_⟩
            have hx := extCapNext_le (toInt32 (rd addr))
            omega
          · assumption
          · have hc : (insert addr been).card ≤ 4096 := by
              have := Finset.card_le_card (Finset.insert_subset haddr hsub)
              simpa [Int.card_Ico] using this
            rw [Finset.card_insert_of_not_mem hnot] at hc ⊢
            omega

/-- The standard-capability walk cannot exhaust its fuel while more fuel
remains than unmarked bitmap entries. -/
lemma stdWalk_fueled (rdWord : ℕ → ℕ) :
    ∀ fuel : ℕ, ∀ addr : ℕ, ∀ been : Finset ℕ,
      been ⊆ Finset.range 256 → addr ∈ Finset.range 256 →
      addr ∉ been → 256 - been.card < fuel →
      getPcieCapOffsetGo rdWord fuel addr been ≠ .outOfFuel := by
  intro fuel
  induction fuel with
  | zero =>
    intro addr been h1 h2 h3 h4
    omega
  | succ n ih =>
    intro addr been hsub haddr hnot hfuel
    rw [getPcieCapOffsetGo.eq_def]
    simp only
    split
    · intro hcon
      exact CapWalk.noConfusion hcon
    · split
      · intro hcon
        exact CapWalk.noConfusion hcon
      · split
        · intro hcon
          exact CapWalk.noConfusion hcon
        · apply ih
          · exact Finset.insert_subset haddr hsub
          · exact Finset.mem_range.mpr (Nat.mod_lt _ (by omega))
          · assumption
          · have hc : (insert addr been).card ≤ 256 := by
              have := Finset.card_le_card (Finset.insert_subset haddr hsub)
              simpa using this
            rw [Finset.card_insert_of_not_mem hnot] at hc ⊢
            omega

/-! ### Eye-scan helper lemmas -/

lemma allButLastPass_nil (f : MarginCmd → ℕ) : AllButLastPass f [] := by
  intro i c h hl
  simp at h

lemma allButLastPass_single (f : MarginCmd → ℕ) (a : MarginCmd) :
    AllButLastPass f [a] := by
  intro i c h hl
  simp at hl

lemma allButLastPass_cons (f : MarginCmd → ℕ) (a : MarginCmd) (t : List MarginCmd)
    (ha : f a = S_MARGINING) (ht : AllButLastPass f t) : AllButLastPass f (a :: t) := by
  intro i c h hl
  cases i with
  | zero =>
    rw [List.get?_cons_zero] at h
    obtain rfl := Option.some.inj h
    exact ha
  | succ j =>
    rw [List.get?_cons_succ] at h
    simp only [List.length_cons] at hl
    exact ht j c h (by omega)

-- preservation lemmas
lemma recordNeg_posFail (pn : Bool) (mp : Option ℕ) (st : EyeState) :
    (recordNeg pn mp st).posFail = st.posFail := by
  unfold recordNeg
  split <;> split <;> rfl

lemma recordNeg_of_negFail (pn : Bool) (mp : Option ℕ) (st : EyeState)
    (h : st.negFail ≠ none) : recordNeg pn mp st = st := by
  simp [recordNeg, h]

lemma scanPosStep_negFail (f : MarginCmd → ℕ) (ie : Bool) (o : ℕ) (st : EyeState) :
    (scanPosStep f ie o st).1.negFail = st.negFail := by
  unfold scanPosStep
  split
  · simp only
    split <;> split <;> rfl
  · rfl

lemma scanPosStep_skip (f : MarginCmd → ℕ) (o : ℕ) (st : EyeState)
    (h : st.posFail ≠ none) : scanPosStep f false o st = (st, none, false, []) := by
  unfold scanPosStep
  rw [if_neg]
  simp [h]

lemma scanPosStep_issued_pass (f : MarginCmd → ℕ) (o : ℕ) (st : EyeState)
    (h : st.posFail = none) (hs : f (.posCmd o) = S_MARGINING) :
    scanPosStep f false o st =
      ({ st with posPass := some (f (.posCmd o)) }, some (f (.posCmd o)), true,
        [.posCmd o]) := by
  unfold scanPosStep
  rw [if_pos (Or.inr h)]
  simp only [if_pos hs, if_pos h]
  simp [hs]

lemma scanPosStep_issued_fail (f : MarginCmd → ℕ) (o : ℕ) (st : EyeState)
    (h : st.posFail = none) (hs : f (.posCmd o) ≠ S_MARGINING) :
    scanPosStep f false o st =
      ({ st with posFail := some (f (.posCmd o)) }, some (f (.posCmd o)), false,
        [.posCmd o]) := by
  unfold scanPosStep
  rw [if_pos (Or.inr h)]
  simp only [if_neg hs, if_pos h]
  simp [hs]

lemma scanNegStep_skip (f : MarginCmd → ℕ) (o : ℕ) (mp : Option ℕ) (pp : Bool)
    (st : EyeState) (h : st.negFail ≠ none) :
    scanNegStep f false o mp pp st = (mp, pp, []) := by
  unfold scanNegStep
  rw [if_neg]
  simp [h]

lemma scanNegStep_issued (f : MarginCmd → ℕ) (o : ℕ) (mp : Option ℕ) (pp : Bool)
    (st : EyeState) (h : st.negFail = none) :
    scanNegStep f false o mp pp st =
      (some (f (.negCmd o)), decide (f (.negCmd o) = S_MARGINING), [.negCmd o]) := by
  unfold scanNegStep
  rw [if_pos (Or.inr h)]

lemma filter_isNeg_posTrace (f : MarginCmd → ℕ) (ie : Bool) (o : ℕ) (st : EyeState) :
    List.filter (fun c => c.isNeg) (scanPosStep f ie o st).2.2.2 = [] := by
  unfold scanPosStep
  split
  · simp [MarginCmd.isNeg]
  · simp

lemma recordNeg_negFail_of_pass (mp : Option ℕ) (st : EyeState) :
    (recordNeg true mp st).negFail = st.negFail := by
  unfold recordNeg
  simp only [if_true]
  split <;> rfl

lemma recordNeg_negFail_of_fail (mp : Option ℕ) (st : EyeState)
    (h : st.negFail = none) : (recordNeg false mp st).negFail = mp := by
  unfold recordNeg
  simp only [Bool.false_eq_true, if_false]
  rw [if_pos h]

-- skip lemma, positive side
lemma posFilter_nil (f : MarginCmd → ℕ) (indDir untilFail : Bool) (target step : ℕ) :
    ∀ fuel offset st, st.posFail ≠ none →
      ((scanEyeGo f false indDir untilFail target step fuel offset st).2.filter
        (fun c => c.isPos)) = [] := by
  intro fuel
  induction fuel with
  | zero =>
    intro o st h
    simp [scanEyeGo]
  | succ n ih =>
    intro o st h
    rw [scanEyeGo.eq_def]
    simp only [scanPosStep_skip f o st h]
    rcases indDir with _ | _
    · simp only [Bool.false_eq_true, if_false]
      split
      · simp
      · split
        · simp
        · simp only [List.nil_append]
          exact ih _ _ (by rw [recordNeg_posFail]; exact h)
    · simp only [eq_self_iff_true, if_true]
      by_cases hng : st.negFail = none
      · rw [scanNegStep_issued f o none false st hng]
        split
        · simp [MarginCmd.isPos]
        · split
          · simp [MarginCmd.isPos]
          · simp only [List.nil_append, List.filter_append]
            refine List.append_eq_nil.mpr ⟨by simp [MarginCmd.isPos], ih _ _ ?_⟩
            rw [recordNeg_posFail]
            exact h
      · rw [scanNegStep_skip f o none false st hng]
        split
        · simp
        · split
          · simp
          · simp only [List.nil_append]
            exact ih _ _ (by rw [recordNeg_posFail]; exact h)

-- no negative commands at all without independent direction control
lemma negFilter_nil_of_not_indDir (f : MarginCmd → ℕ) (untilFail : Bool)
    (target step : ℕ) :
    ∀ fuel offset st,
      ((scanEyeGo f false false untilFail target step fuel offset st).2.filter
        (fun c => c.isNeg)) = [] := by
  intro fuel
  induction fuel with
  | zero =>
    intro o st
    simp [scanEyeGo]
  | succ n ih =>
    intro o st
    rw [scanEyeGo.eq_def]
    simp only [Bool.false_eq_true, if_false]
    split
    · simp only [List.append_nil, filter_isNeg_posTrace]
    · split
      · simp only [List.append_nil, filter_isNeg_posTrace]
      · simp only [List.append_nil, List.filter_append, filter_isNeg_posTrace,
          List.nil_append]
        exact ih _ _

-- skip lemma, negative side (independent direction control present)
lemma negFilter_nil (f : MarginCmd → ℕ) (untilFail : Bool) (target step : ℕ) :
    ∀ fuel offset st, st.negFail ≠ none →
      ((scanEyeGo f false true untilFail target step fuel offset st).2.filter
        (fun c => c.isNeg)) = [] := by
  intro fuel
  induction fuel with
  | zero =>
    intro o st h
    simp [scanEyeGo]
  | succ n ih =>
    intro o st h
    have h1 : (scanPosStep f false o st).1.negFail ≠ none := by
      rw [scanPosStep_negFail]
      exact h
    rw [scanEyeGo.eq_def]
    simp only [eq_self_iff_true, if_true]
    rw [scanNegStep_skip f o _ _ _ h1]
    split
    · simp only [List.append_nil, filter_isNeg_posTrace]
    · split
      · simp only [List.append_nil, filter_isNeg_posTrace]
      · simp only [List.append_nil, List.filter_append, filter_isNeg_posTrace,
          List.nil_append]
        exact ih _ _ (by rw [recordNeg_of_negFail _ _ _ h1]; exact h1)

lemma isPos_posCmd (o : ℕ) : (MarginCmd.posCmd o).isPos = true := rfl

lemma isPos_negCmd (o : ℕ) : (MarginCmd.negCmd o).isPos = false := rfl

lemma isNeg_posCmd (o : ℕ) : (MarginCmd.posCmd o).isNeg = false := rfl

lemma isNeg_negCmd (o : ℕ) : (MarginCmd.negCmd o).isNeg = true := rfl

lemma filter_isPos_negStep (f : MarginCmd → ℕ) (ie : Bool) (o : ℕ) (mp : Option ℕ)
    (pp : Bool) (st : EyeState) :
    List.filter (fun c => c.isPos) (scanNegStep f ie o mp pp st).2.2 = [] := by
  unfold scanNegStep
  split
  · simp [MarginCmd.isPos]
  · simp

-- main lemma, positive side
lemma posFilter_allButLast (f : MarginCmd → ℕ) (indDir untilFail : Bool)
    (target step : ℕ) :
    ∀ fuel offset st, st.posFail = none →
      AllButLastPass f
        ((scanEyeGo f false indDir untilFail target step fuel offset st).2.filter
          (fun c => c.isPos)) := by
  intro fuel
  induction fuel with
  | zero =>
    intro o st h
    simp only [scanEyeGo, List.filter_nil]
    exact allButLastPass_nil f
  | succ n ih =>
    intro o st h
    by_cases hs : f (.posCmd o) = S_MARGINING
    · rw [scanEyeGo.eq_def]
      simp only [scanPosStep_issued_pass f o st h hs]
      rcases indDir with _ | _
      · simp only [Bool.false_eq_true, if_false]
        split
        all_goals try split
        all_goals simp only [List.cons_append, List.nil_append, List.append_nil, List.filter_append,
          List.filter_cons, isPos_posCmd, isPos_negCmd, filter_isPos_negStep, if_true,
          List.filter_nil, eq_self_iff_true]
        all_goals refine allButLastPass_cons f _ _ hs ?_
        all_goals first
          | exact allButLastPass_nil f
          | (refine ih _ _ ?_; rw [recordNeg_posFail]; exact h)
      · simp only [eq_self_iff_true, if_true]
        split
        all_goals try split
        all_goals simp only [List.cons_append, List.nil_append, List.append_nil, List.filter_append,
          List.filter_cons, isPos_posCmd, isPos_negCmd, filter_isPos_negStep, if_true,
          List.filter_nil, eq_self_iff_true]
        all_goals refine allButLastPass_cons f _ _ hs ?_
        all_goals first
          | exact allButLastPass_nil f
          | (refine ih _ _ ?_; rw [recordNeg_posFail]; exact h)
    · rw [scanEyeGo.eq_def]
      simp only [scanPosStep_issued_fail f o st h hs]
      rcases indDir with _ | _
      · simp only [Bool.false_eq_true, if_false]
        split
        all_goals try split
        all_goals simp only [List.cons_append, List.nil_append, List.append_nil, List.filter_append,
          List.filter_cons, isPos_posCmd, isPos_negCmd, filter_isPos_negStep, if_true,
          List.filter_nil, eq_self_iff_true]
        all_goals try rw [posFilter_nil f false untilFail target step n _ _
          (by rw [recordNeg_posFail]; simp)]
        all_goals exact allButLastPass_single f _
      · simp only [eq_self_iff_true, if_true]
        split
        all_goals try split
        all_goals simp only [List.cons_append, List.nil_append, List.append_nil, List.filter_append,
          List.filter_cons, isPos_posCmd, isPos_negCmd, filter_isPos_negStep, if_true,
          List.filter_nil, eq_self_iff_true]
        all_goals try rw [posFilter_nil f true untilFail target step n _ _
          (by rw [recordNeg_posFail]; simp)]
        all_goals exact allButLastPass_single f _

-- main lemma, negative side (indDir = true)
lemma negFilter_allButLast (f : MarginCmd → ℕ) (untilFail : Bool) (target step : ℕ) :
    ∀ fuel offset st, st.negFail = none →
      AllButLastPass f
        ((scanEyeGo f false true untilFail target step fuel offset st).2.filter
          (fun c => c.isNeg)) := by
  intro fuel
  induction fuel with
  | zero =>
    intro o st h
    simp only [scanEyeGo, List.filter_nil]
    exact allButLastPass_nil f
  | succ n ih =>
    intro o st h
    have h1 : (scanPosStep f false o st).1.negFail = none := by
      rw [scanPosStep_negFail]
      exact h
    by_cases hs2 : f (.negCmd o) = S_MARGINING
    · rw [scanEyeGo.eq_def]
      simp only [eq_self_iff_true, if_true]
      rw [scanNegStep_issued f o ((scanPosStep f false o st).2.1)
        ((scanPosStep f false o st).2.2.1) ((scanPosStep f false o st).1) h1]
      simp only [hs2, eq_self_iff_true, decide_True]
      split
      all_goals try split
      all_goals simp only [List.cons_append, List.nil_append, List.append_nil,
        List.filter_append, List.filter_cons, isNeg_posCmd, isNeg_negCmd,
        filter_isNeg_posTrace, if_true, List.filter_nil, eq_self_iff_true]
      all_goals refine allButLastPass_cons f _ _ hs2 ?_
      all_goals first
        | exact allButLastPass_nil f
        | (refine ih _ _ ?_; rw [recordNeg_negFail_of_pass]; exact h1)
    · rw [scanEyeGo.eq_def]
      simp only [eq_self_iff_true, if_true]
      rw [scanNegStep_issued f o ((scanPosStep f false o st).2.1)
        ((scanPosStep f false o st).2.2.1) ((scanPosStep f false o st).1) h1]
      have hd : decide (f (.negCmd o) = S_MARGINING) = false := by
        simp [hs2]
      simp only [hd]
      split
      all_goals try split
      all_goals simp only [List.cons_append, List.nil_append, List.append_nil,
        List.filter_append, List.filter_cons, isNeg_posCmd, isNeg_negCmd,
        filter_isNeg_posTrace, if_true, List.filter_nil, eq_self_iff_true]
      all_goals try rw [negFilter_nil f untilFail target step n _ _
        (by rw [recordNeg_negFail_of_fail _ _ h1]; simp)]
      all_goals exact allButLastPass_single f _

/-! ## Claim theorems -/

/-- C4: For every MarginPoint built by `margin()`, with steps equal to the
offset payload with its direction bit cleared, a timing point's
`percent_ui` equals `steps * max_timing_offset / (num_timing_steps * 100)`
and a voltage point's `voltage` equals
`steps * max_voltage_offset / (num_voltage_steps * 100)`, using the lane's
LaneParameters. -/
theorem c4_margin_value_formula (p : LaneParameters) (offset : ℕ) :
    marginPercentUi p offset =
      (timingSteps offset : ℚ) * (p.maxTimingOffset : ℚ) / ((p.numTimingSteps : ℚ) * 100) ∧
    marginVoltage p offset =
      (voltageSteps offset : ℚ) * (p.maxVoltageOffset : ℚ) / ((p.numVoltageSteps : ℚ) * 100) := by
  constructor
  · unfold marginPercentUi
    rw [div_div, mul_comm (100 : ℚ)]
  · unfold marginVoltage
    rw [div_div, mul_comm (100 : ℚ)]

/-- C5: For every 16-bit word `w` whose bit 7 is 0, encoding the decoded
fields of `w` reproduces `w` exactly: `encode (decode w) = w` (payload in
bits [15:8], usage in bit [6], type in bits [5:3], receiver in bits [2:0]). -/
theorem c5_codec_roundtrip (w : ℕ) (hw : w < 65536) (hb : w.testBit 7 = false) :
    (cmdRsp.decode w).encode = w := by
  have hb2 : w / 128 % 2 = 0 := by
    have h := Nat.testBit_to_div_mod (x := w) (i := 7)
    rw [hb] at h
    norm_num at h
    omega
  rw [decode_fields, encode_eq_arith]
  simp only
  omega

/-- Witness for C5 at the concrete word 0x9C07. -/
theorem c5_codec_roundtrip_witness :
    (0x9C07 : ℕ) < 65536 ∧ Nat.testBit 0x9C07 7 = false ∧
    (cmdRsp.decode 0x9C07).encode = 0x9C07 :=
  ⟨by decide, by decide, c5_codec_roundtrip 0x9C07 (by decide) (by decide)⟩

/-- C1 is violated by the code (`code_bug`): from pre-test registers
LnkCtl = 0x0201 (ASPM = 01b and HWAUTWD set) and LnkCtl2 = 0x0000 (HASD
clear), `prepLink` captures `hawd = true`, `hasd = false` and writes
LnkCtl = 0x0200, LnkCtl2 = 0x0020; `restoreLink` then writes back
LnkCtl = 0x0200 and LnkCtl2 = 0x0020, so LnkCtl2's Speed-Disable bit stays
set although the captured `hasd` was clear (the source restores the `hawd`
flag into it), and LnkCtl's ASPM bits stay 00b although they were 01b
before preparation (no path restores ASPM). -/
theorem c1_restore_divergence :
    prepPort ⟨0x0201, 0⟩ = ((⟨0x0200, 0x0020⟩ : PortRegs), (⟨true, false⟩ : SavedPort)) ∧
    restorePort ⟨true, false⟩ ⟨0x0200, 0x0020⟩ = (⟨0x0200, 0x0020⟩ : PortRegs) ∧
    ((0x0020 : ℕ) &&& PCI_EXP_LNKCTL2_SPEED_DIS ≠ 0) ∧
    ((0 : ℕ) &&& PCI_EXP_LNKCTL2_SPEED_DIS = 0) ∧
    ((0x0200 : ℕ) &&& PCI_EXP_LNKCTL_ASPM = 0) ∧
    ((0x0201 : ℕ) &&& PCI_EXP_LNKCTL_ASPM = 1) := by
  decide

/-- C2 as stated is violated by the code: in the write trace of a
`margin()` call on a count-reporting lane (timing offset 10, receiver 6,
`setSampleCount` true), the Report-Sample-Count command at index 2 is
issued directly through `lmrCmdRspBase` and is immediately preceded by the
step command write, not by a No-Command broadcast. -/
theorem c2_counterexample :
    ¬ noCmdPrecedesEachCmd (marginWriteTrace 6 10 false paramsCountReporting true) := by
  intro h
  obtain ⟨-, d, hd, hnod⟩ :=
    h 2 ⟨RptSampleCount, UsageModel, MarginTypeReport, 6⟩ (by decide) (by decide)
  have hd1 : (marginWriteTrace 6 10 false paramsCountReporting true).get? 1 =
      some ⟨10, UsageModel, MarginTypeTiming, 6⟩ := by decide
  rw [hd1] at hd
  obtain rfl := (Option.some.inj hd).symm
  exact (by decide : ¬ isNoCmd (⟨10, UsageModel, MarginTypeTiming, 6⟩ : cmdRsp)) hnod

/-- C2 amended: every non-NoCmd command in `margin()`'s write trace other
than the Report-Sample-Count query (the one command issued through bare
`lmrCmdRspBase`) is immediately preceded by an acknowledged No-Command
broadcast — this covers the timing/voltage step command and the Set
commands (Clear-Error-Log, Go-To-Normal-Settings) alike. -/
theorem c2_broadcast_amended (recNum offset : ℕ) (vNotT : Bool) (p : LaneParameters)
    (ssc : Bool) (i : ℕ) (c : cmdRsp)
    (hget : (marginWriteTrace recNum offset vNotT p ssc).get? i = some c)
    (hnc : ¬ isNoCmd c)
    (hnr : ¬(c.typ = MarginTypeReport ∧ c.payload = RptSampleCount)) :
    0 < i ∧ ∃ d, (marginWriteTrace recNum offset vNotT p ssc).get? (i - 1) = some d ∧
      isNoCmd d := by
  unfold marginWriteTrace at hget ⊢
  by_cases hmid : (if ssc then
      (if p.sampleReportingMethod ∨ ¬p.indErrorSampler then ([] : List cmdRsp)
       else [⟨RptSampleCount, UsageModel, MarginTypeReport, recNum⟩]) else []) = []
  · rw [hmid] at hget ⊢
    simp only [List.nil_append, List.cons_append, List.append_nil] at hget ⊢
    rcases i with _ | _ | _ | _ | _ | _ | i
    · refine absurd ?_ hnc
      obtain rfl := Option.some.inj hget
      decide
    · exact ⟨by omega, noCmdCmd, rfl, by decide⟩
    · refine absurd ?_ hnc
      obtain rfl := Option.some.inj hget
      decide
    · exact ⟨by omega, noCmdCmd, rfl, by decide⟩
    · refine absurd ?_ hnc
      obtain rfl := Option.some.inj hget
      decide
    · exact ⟨by omega, noCmdCmd, rfl, by decide⟩
    · simp at hget
  · have hmid2 : (if ssc then
        (if p.sampleReportingMethod ∨ ¬p.indErrorSampler then ([] : List cmdRsp)
         else [⟨RptSampleCount, UsageModel, MarginTypeReport, recNum⟩]) else []) =
        [⟨RptSampleCount, UsageModel, MarginTypeReport, recNum⟩] := by
      rcases ssc with _ | _
      · simp at hmid
      · simp only [if_pos rfl] at hmid ⊢
        by_cases hc : (p.sampleReportingMethod = true ∨ ¬p.indErrorSampler = true)
        · rw [if_pos hc] at hmid
          exact absurd rfl hmid
        · rw [if_neg hc]
          simp
    rw [hmid2] at hget ⊢
    simp only [List.nil_append, List.cons_append, List.append_nil] at hget ⊢
    rcases i with _ | _ | _ | _ | _ | _ | _ | i
    · refine absurd ?_ hnc
      obtain rfl := Option.some.inj hget
      decide
    · exact ⟨by omega, noCmdCmd, rfl, by decide⟩
    · refine absurd ?_ hnr
      obtain rfl := Option.some.inj hget
      exact ⟨rfl, rfl⟩
    · refine absurd ?_ hnc
      obtain rfl := Option.some.inj hget
      decide
    · exact ⟨by omega, noCmdCmd, rfl, by decide⟩
    · refine absurd ?_ hnc
      obtain rfl := Option.some.inj hget
      decide
    · exact ⟨by omega, noCmdCmd, rfl, by decide⟩
    · simp at hget

/-- Witness for the amended C2: the Clear-Error-Log write (index 4 of the
count-reporting trace) is preceded by a No-Command broadcast at index 3. -/
theorem c2_broadcast_amended_witness :
    0 < 4 ∧ ∃ d, (marginWriteTrace 6 10 false paramsCountReporting true).get? 3 = some d ∧
      isNoCmd d :=
  c2_broadcast_amended 6 10 false paramsCountReporting true 4
    ⟨SetClearErrorLog, UsageModel, MarginTypeSet, 6⟩ (by decide) (by decide) (by decide)

/-- C3: In `margin()`'s polling loop, the measurement terminates only with
status ErrorOut, Margining (and then only once the accumulated dwell has
been reached), or NAK; a SettingUp response never terminates the
measurement unless the 1000 ms setup timeout since the step command has
elapsed; and (because the 2-bit status field covers all four cases) the
Unknown terminal branch is never taken. -/
theorem c3_margin_terminal_status (rsp : ℕ → ℕ) (dwellMs fuel i : ℕ)
    (dwellStart : Option ℕ) (dwellActual : ℕ) (out : MarginLoopOut)
    (h : marginLoopGo rsp dwellMs fuel i dwellStart dwellActual = some out) :
    (out.status = S_ERROR_OUT ∨ out.status = S_NAK ∨
     (out.status = S_MARGINING ∧ dwellMs ≤ out.dwellActualMs) ∨
     (out.status = S_SETTING_UP ∧ marginTimeoutMs < out.exitElapsedMs)) ∧
    out.status ≠ S_UNKNOWN := by
  induction fuel generalizing i dwellStart dwellActual with
  | zero => simp [marginLoopGo] at h
  | succ n ih =>
    rw [marginLoopGo.eq_def] at h
    simp only at h
    split at h
    · injection h with h2
      subst h2
      exact ⟨Or.inr (Or.inl rfl), by simp [S_NAK, S_UNKNOWN]⟩
    · split at h
      · injection h with h2
        subst h2
        exact ⟨Or.inl rfl, by simp [S_ERROR_OUT, S_UNKNOWN]⟩
      · split at h
        · split at h
          · injection h with h2
            subst h2
            refine ⟨Or.inr (Or.inr (Or.inr ⟨rfl, ?_⟩)), by simp [S_SETTING_UP, S_UNKNOWN]⟩
            assumption
          · exact ih _ _ _ h
        · split at h
          · split at h
            · injection h with h2
              subst h2
              refine ⟨Or.inr (Or.inr (Or.inl ⟨rfl, ?_⟩)), by simp [S_MARGINING, S_UNKNOWN]⟩
              assumption
            · exact ih _ _ _ h
          · exfalso
            have hle := status_le_three ((rsp i >>> 8) &&& 0xFF)
            simp only [StepMarginExecutionStatusNak, StepMarginExecutionStatusErrorOut,
              StepMarginExecutionStatusSettingUp, StepMarginExecutionStatusMargining,
              StepMarginExecutionStatusPos, StepMarginExecutionStatusMask] at *
            omega

/-- Witness for C3: a response stream that answers NAK on the first poll
terminates immediately with status `S_NAK`. -/
theorem c3_margin_terminal_status_witness :
    marginLoopGo (fun _ => 0xC000) 5 1 0 none 0 =
      some ⟨S_NAK, 0, 0, false, 0⟩ ∧
    ((((⟨S_NAK, 0, 0, false, 0⟩ : MarginLoopOut)).status = S_ERROR_OUT ∨
      (⟨S_NAK, 0, 0, false, 0⟩ : MarginLoopOut).status = S_NAK ∨
      ((⟨S_NAK, 0, 0, false, 0⟩ : MarginLoopOut).status = S_MARGINING ∧
        5 ≤ (⟨S_NAK, 0, 0, false, 0⟩ : MarginLoopOut).dwellActualMs) ∨
      ((⟨S_NAK, 0, 0, false, 0⟩ : MarginLoopOut).status = S_SETTING_UP ∧
        marginTimeoutMs < (⟨S_NAK, 0, 0, false, 0⟩ : MarginLoopOut).exitElapsedMs)) ∧
     (⟨S_NAK, 0, 0, false, 0⟩ : MarginLoopOut).status ≠ S_UNKNOWN) :=
  ⟨by decide,
   c3_margin_terminal_status (fun _ => 0xC000) 5 1 0 none 0 ⟨S_NAK, 0, 0, false, 0⟩ (by decide)⟩

/-- C7: When a margin point terminates with `setSampleCount` true: if the
lane reports by rate or lacks an independent error sampler,
`sample_count = round(3 * log2(dwell_actual * sps))`, except that it is the
sentinel 18 (representing 64 bits) when `dwell_actual * sps` is 0;
otherwise `sample_count` is the low 7 bits of the Report-Sample-Count
response. -/
theorem c7_sample_count (p : LaneParameters) (dA sps : ℝ) (rpt : ℕ) :
    ((p.sampleReportingMethod ∨ ¬p.indErrorSampler) →
      (dA * sps = 0 → marginSampleCount p dA sps rpt = 18) ∧
      (dA * sps ≠ 0 →
        marginSampleCount p dA sps rpt = round (3 * Real.logb 2 (dA * sps)))) ∧
    (¬(p.sampleReportingMethod ∨ ¬p.indErrorSampler) →
      marginSampleCount p dA sps rpt = ((rpt &&& MskSampleCount : ℕ) : ℤ)) := by
  unfold marginSampleCount deriveSampleCountByRate
  constructor
  · intro hc
    rw [if_pos hc]
    constructor
    · intro h0
      rw [h0]
      simp
    · intro h0
      simp only [if_neg h0]
      rw [mul_comm]
  · intro hc
    rw [if_neg hc]

/-- Witness for C7: one second of dwell at 4 samples per second yields
`round(3 * log2 4) = 6` on a rate-reporting lane. -/
theorem c7_sample_count_witness : marginSampleCount paramsRateReporting 1 4 0 = 6 := by
  have h := ((c7_sample_count paramsRateReporting 1 4 0).1
    (by simp [paramsRateReporting])).2 (by norm_num)
  rw [h]
  norm_num
  have h4 : Real.logb 2 4 = 2 := by
    rw [show (4 : ℝ) = 2 ^ (2 : ℕ) by norm_num, Real.logb_pow,
      Real.logb_self_eq_one (by norm_num)]
    norm_num
  rw [h4]
  norm_num

/-- C6 is violated by the code (`code_bug`): the samples-per-second,
rate-coercion and derived-dwell formulas hold as claimed
(`sps = ((rate+1)/64) * 16e9` on Gen4, derived dwell `2^(samples/3)/sps`),
and `calculateDwellTime` records `max(spec dwell, derived dwell)` in the
result spec (`specDwell`), but the `t.dwell` field that `margin()` uses as
its dwell threshold is left at the derived dwell even when the spec's
dwell is larger — the "Using specified dwell" branch never writes
`t.dwell`.  At rate 63, samples 0, spec dwell 10 s on a Gen4 link, the
dwell used for margining is `1/16e9` s, not `max(10, 1/16e9) = 10` s. -/
theorem c6_dwell_divergence :
    (calculateDwellTime paramsIndSampler (linkSpeedBps Speed16G) 63 0 (some 10)).sps = 16e9 ∧
    (calculateDwellTime paramsIndSampler (linkSpeedBps Speed16G) 63 0 (some 10)).dwell =
      1 / 16e9 ∧
    (calculateDwellTime paramsIndSampler (linkSpeedBps Speed16G) 63 0 (some 10)).specDwell = 10 ∧
    (calculateDwellTime paramsIndSampler (linkSpeedBps Speed16G) 63 0 (some 10)).dwell ≠
      max (calculateDwellTime paramsIndSampler (linkSpeedBps Speed16G) 63 0 (some 10)).specDwell
        (calculateDwellTime paramsIndSampler (linkSpeedBps Speed16G) 63 0 (some 10)).dwell := by
  have hsp : linkSpeedBps Speed16G = 16e9 := by
    unfold linkSpeedBps
    simp
  have hpow : (2 : ℝ) ^ (((0 : ℕ) : ℝ) / 3) = 1 := by
    norm_num
  unfold calculateDwellTime
  rw [hsp]
  simp only [paramsIndSampler, Nat.cast_ofNat, hpow]
  norm_num

/-- C8: In an eye scan on a lane whose LaneParameters report no independent
error sampler (`indErr = false` in `scanEyeGo`), once a side (positive or
negative) has recorded its first failing margin point, no further step
command is issued on that side for the remainder of the scan — every
issued command on a side except possibly the last one has status
Margining. -/
theorem c8_stop_on_fail (f : MarginCmd → ℕ) (indDir untilFail : Bool)
    (target step fuel offset : ℕ) (st : EyeState)
    (hpos : st.posFail = none) (hneg : st.negFail = none) :
    AllButLastPass f
      ((scanEyeGo f false indDir untilFail target step fuel offset st).2.filter
        (fun c => c.isPos)) ∧
    AllButLastPass f
      ((scanEyeGo f false indDir untilFail target step fuel offset st).2.filter
        (fun c => c.isNeg)) := by
  constructor
  · exact posFilter_allButLast f indDir untilFail target step fuel offset st hpos
  · rcases indDir with _ | _
    · rw [negFilter_nil_of_not_indDir f untilFail target step fuel offset st]
      exact allButLastPass_nil f
    · exact negFilter_allButLast f untilFail target step fuel offset st hneg

/-- Witness for C8: under `scanOracle` (positive side fails first at
offset 2, negative at offset 1), scanning 0..3 issues positive commands
0, 1, 2 and negative commands 0, 1; the non-final ones pass. -/
theorem c8_stop_on_fail_witness :
    scanOracle (.posCmd 0) = S_MARGINING ∧ scanOracle (.negCmd 0) = S_MARGINING :=
  ⟨(c8_stop_on_fail scanOracle true false 3 1 10 0 EyeState.init rfl rfl).1 0 (.posCmd 0)
      (by decide) (by decide),
   (c8_stop_on_fail scanOracle true false 3 1 10 0 EyeState.init rfl rfl).2 0 (.negCmd 0)
      (by decide) (by decide)⟩

/-- C9: `Lane.Pass` is monotonically non-increasing over a lane's lifetime:
`Init` sets it to true, every later assignment only ever writes false (a
terminal margin-point status other than Margining or permitted Error-Out,
or a measured eye size below the spec's `eye_size`), no operation sets it
back to true, and once false it stays false over any sequence of updates. -/
theorem c9_pass_monotone :
    lanePassInit = true ∧
    (∀ p e, lanePassStep p e = true → p = true) ∧
    (∀ evs : List LaneEvent, evs.foldl lanePassStep false = false) := by
  refine ⟨rfl, lanePassStep_true_mono, ?_⟩
  intro evs
  induction evs with
  | nil => rfl
  | cons e t ih =>
    show (e :: t).foldl lanePassStep false = false
    rw [List.foldl_cons, lanePassStep_false]
    exact ih

/-- Witness for C9: a passing margin point keeps a passing lane passing. -/
theorem c9_pass_monotone_witness :
    lanePassStep true (.marginPoint S_MARGINING false) = true ∧ true = true :=
  ⟨by decide, c9_pass_monotone.2.1 true (.marginPoint S_MARGINING false) (by decide)⟩

/-- C10: Both capability walkers terminate on every possible config-space
contents (with fuel one greater than their bitmap size, the out-of-fuel
marker is unreachable: each iteration either returns or marks a previously
unvisited offset) and never index their visited bitmap out of bounds: the
extended walker's next pointer `(hdr >> 20) & 0x0FFC` always lies in
[0, 0xFFC] inside the 4096-entry bitmap (start 0x100 included), and the
standard walker's `uint8`-cast next pointer and start byte are always
below 256. -/
theorem c10_capwalk_safe :
    (∀ rd : ℤ → ℕ, getLMRcapability rd ≠ .outOfFuel) ∧
    (∀ hdr : ℤ, 0 ≤ extCapNext hdr ∧ extCapNext hdr ≤ 0x0FFC) ∧
    ((0 : ℤ) ≤ 0x100 ∧ (0x100 : ℤ) < 4096) ∧
    (∀ rdByte34 : ℕ, ∀ rdWord : ℕ → ℕ, getPcieCapOffset rdByte34 rdWord ≠ .outOfFuel) ∧
    (∀ hdr : ℕ, stdCapNext hdr < 256) ∧
    (∀ rdByte34 : ℕ, rdByte34 % 256 < 256) := by
  refine ⟨?_, fun hdr => ⟨extCapNext_nonneg hdr, extCapNext_le hdr⟩, by norm_num, ?_, ?_, ?_⟩
  · intro rd
    apply lmrWalk_fueled
    · exact Finset.empty_subset _
    · exact Finset.mem_Ico.mpr (by norm_num)
    · simp
    · simp
  · intro rdByte34 rdWord
    apply stdWalk_fueled
    · exact Finset.empty_subset _
    · exact Finset.mem_range.mpr (Nat.mod_lt _ (by omega))
    · simp
    · simp
  · intro hdr
    exact Nat.mod_lt _ (by omega)
  · intro rdByte34
    exact Nat.mod_lt _ (by omega)

end PcieLmt
